import Mathlib

/-!
Verification of the SmartMedia-CMS upload-to-analysis pipeline.

This file gives a shallow embedding of the pipeline code:
the server-side event handlers in src/functions/src/handlers.ts
(analysis trigger onFileUpload, watchdog cleanupStuckProcessing,
quota reconciler manageQuota), the client storage service
(src/unnamed/part_005, with the earlier iteration src/unnamed/part_004
kept separately), and the client application handlers from
src/App.tsx, the application document inside
src/components/ErrorBoundary.tsx, and src/unnamed/part_012.

Status values, error codes and field names are carried verbatim as
strings, exactly as the TypeScript writes them to the durable store.
Timestamps are modelled as Int milliseconds; a serverTimestamp() write
becomes an explicit now parameter.
-/

namespace SmartMedia

/-- Error value stored on a record: the server handlers write a
structured object with code, message and an ISO timestamp (field at),
while the client failUpload writes a bare message string. -/
inductive ErrValue where
  | str (msg : String)
  | structured (code : String) (message : String) (atTime : Int)
deriving DecidableEq

/-- Moderation block returned by the AI flow. -/
structure Moderation where
  verdict : String
  reasons : List String
deriving DecidableEq

/-- Optional extracted entities returned by the AI flow. -/
structure ExtractedEntities where
  people : Option (List String)
  location : Option String
  text : Option String
deriving DecidableEq

/-- Result of analyzeMediaFlow (the AI collaborator call). -/
structure FlowResult where
  caption : String
  tags : List String
  moderation : Moderation
  extractedEntities : Option ExtractedEntities
deriving DecidableEq

/-- The analysis object written onto a record (AnalysisResult in
src/types.ts plus the technicalMetadata.estimatedLocation entry the
server adds). -/
structure AnalysisResult where
  description : String
  tags : List String
  peopleDetected : List String
  safetyLevel : String
  safetyReason : Option String
  transcript : Option String
  suggestedAction : Option String
  technicalLocation : Option String
  isUserEdited : Option Bool
deriving DecidableEq

/-- One durable MediaRecord document at users/uid/files/fileId.
Fields the code may leave absent are Option. -/
structure MediaDoc where
  ownerId : String
  fileId : String
  fileName : String
  mimeType : String
  sizeBytes : Option Int
  storagePath : String
  createdAt : Option Int
  updatedAt : Option Int
  status : String
  progress : Option Int
  downloadURL : Option String
  error : Option ErrValue
  analysis : Option AnalysisResult
  analyzedAt : Option Int
  adminStatus : Option String
  visibility : Option String
  tags : Option (List String)
  caption : Option String
  moderation : Option Moderation
  extractedEntities : Option ExtractedEntities
deriving DecidableEq

/-- UserProfile document fields used by the quota check. -/
structure UserProfileDoc where
  uid : String
  role : String
  quotaBytes : Int
  usedBytes : Int
deriving DecidableEq

/-- Outcome of the getDoc read of the user profile: a successful read
(possibly of a missing document) or a thrown read error. -/
inductive ProfileFetch where
  | ok (profile : Option UserProfileDoc)
  | err
deriving DecidableEq

/-- File metadata visible to the client coordinator. -/
structure FileInfo where
  name : String
  mime : String
  size : Int
deriving DecidableEq

/-! Server-side event handlers, src/functions/src/handlers.ts. -/

namespace Handlers

/-- The write performed by onFileUpload when a pending record has no
downloadURL (handlers.ts lines 38-46). -/
def missingUrlWrite (d : MediaDoc) (now : Int) : MediaDoc :=
  { d with status := "failed",
           error := some (ErrValue.structured "missing_url" "Download URL is required" now),
           updatedAt := some now }

/-- The write that moves a record into processing before the AI call
(handlers.ts lines 53-56). -/
def markProcessing (d : MediaDoc) (now : Int) : MediaDoc :=
  { d with status := "processing", updatedAt := some now }

/-- The success write of onFileUpload (handlers.ts lines 86-104):
status ready, top-level flow fields, the analysis object, analyzedAt. -/
def successWrite (d : MediaDoc) (a : FlowResult) (now : Int) : MediaDoc :=
  { d with status := "ready",
           tags := some a.tags,
           caption := some a.caption,
           moderation := some a.moderation,
           extractedEntities := a.extractedEntities,
           analysis := some
             { description := a.caption,
               tags := a.tags,
               peopleDetected := (a.extractedEntities.bind (fun e => e.people)).getD [],
               safetyLevel := a.moderation.verdict,
               safetyReason := some (String.intercalate ", " a.moderation.reasons),
               transcript := a.extractedEntities.bind (fun e => e.text),
               suggestedAction := some "Organized by SmartMedia AI",
               technicalLocation := a.extractedEntities.bind (fun e => e.location),
               isUserEdited := none },
           analyzedAt := some now,
           updatedAt := some now }

/-- The failure write of onFileUpload (handlers.ts lines 111-119):
status failed with an analysis_failed error carrying the thrown
message, where a falsy message becomes Unknown error. -/
def analysisFailedWrite (d : MediaDoc) (m : String) (now : Int) : MediaDoc :=
  { d with status := "failed",
           error := some (ErrValue.structured "analysis_failed"
             (if m = "" then "Unknown error" else m) now),
           updatedAt := some now }

/-- onFileUpload (handlers.ts lines 14-122). Input is the post-write
snapshot (none models a deletion), the outcome of the known-people
context fetch, and the AI flow as a function of the context set whose
outcome is success or a thrown message. Output: the list of successive
document states written by this invocation, and whether the AI flow
was invoked. -/
def onFileUpload (after : Option MediaDoc) (ctxFetch : Except Unit (List String))
    (ai : List String → Except String FlowResult) (now : Int) :
    List MediaDoc × Bool :=
  match after with
  | none => ([], false)
  | some d =>
    if d.status = "pending" then
      match d.downloadURL with
      | none => ([missingUrlWrite d now], false)
      | some _ =>
        let knownPeople := match ctxFetch with
          | Except.ok l => l
          | Except.error _ => []
        let d1 := markProcessing d now
        match ai knownPeople with
        | Except.ok a => ([d1, successWrite d1 a now], true)
        | Except.error m => ([d1, analysisFailedWrite d1 m now], true)
    else ([], false)

/-- Staleness test of the watchdog query (handlers.ts lines 138-141):
status in pending or processing, updatedAt strictly before the
five-minute cutoff. A document without updatedAt never matches an
inequality filter. -/
def isStale (now : Int) (d : MediaDoc) : Bool :=
  (d.status == "pending" || d.status == "processing")
    && (match d.updatedAt with
        | some t => decide (t < now - 5 * 60 * 1000)
        | none => false)

/-- The batched update applied to each stale document
(handlers.ts lines 151-159). -/
def markTimedOut (now : Int) (d : MediaDoc) : MediaDoc :=
  { d with status := "failed",
           error := some (ErrValue.structured "timeout"
             "AI pipeline timeout. Please click Reanalyze." now),
           updatedAt := some now }

/-- cleanupStuckProcessing (handlers.ts lines 127-167): one scheduled
sweep over the cross-owner files collection at time now. -/
def cleanupStuckProcessing (now : Int) (docs : List MediaDoc) : List MediaDoc :=
  docs.map (fun d => if isStale now d then markTimedOut now d else d)

/-- The signed size delta of manageQuota (handlers.ts lines 183-198),
computed from the before and after snapshots. -/
def quotaDelta (before after : Option MediaDoc) : Int :=
  match before, after with
  | none, some a => a.sizeBytes.getD 0
  | some b, none => -(b.sizeBytes.getD 0)
  | some b, some a => a.sizeBytes.getD 0 - b.sizeBytes.getD 0
  | none, none => 0

/-- manageQuota (handlers.ts lines 171-211): effect of one invocation
on the owner usedBytes counter; a zero delta skips the write. -/
def manageQuota (used : Int) (before after : Option MediaDoc) : Int :=
  if quotaDelta before after ≠ 0 then used + quotaDelta before after else used

end Handlers

/-- Frontend media item as built by mapSnapshotToMediaItems in the
storage service (src/unnamed/part_005 lines 197-231). The file field
marks whether the in-memory File object is still held. -/
structure MediaItem where
  id : String
  file : Option FileInfo
  url : String
  mediaType : String
  name : String
  timestamp : Int
  status : String
  progress : Int
  error : Option ErrValue
  analysis : Option AnalysisResult
  isAnalyzing : Bool
  ownerId : String
  storagePath : String
  sizeBytes : Option Int
  adminStatus : String
  visibility : String
deriving DecidableEq

/-! Current client storage service, src/unnamed/part_005. -/

namespace StorageService

/-- guessMediaType (part_005 lines 8-12). -/
def guessMediaType (mime : String) : String :=
  if mime.startsWith "video/" then "VIDEO"
  else if mime.startsWith "audio/" then "AUDIO"
  else "IMAGE"

/-- checkQuota (part_005 lines 63-77): compares remaining quota when
the profile document exists, permits the upload when it is missing,
and rejects when the read throws. -/
def checkQuota (fetch : ProfileFetch) (fileSize : Int) : Bool :=
  match fetch with
  | ProfileFetch.ok (some p) => decide (p.quotaBytes - p.usedBytes ≥ fileSize)
  | ProfileFetch.ok none => true
  | ProfileFetch.err => false

/-- Durable and storage effects initializeUpload can perform. -/
inductive InitEffect where
  | createDoc (d : MediaDoc)
  | startUploadTask (path : String)
deriving DecidableEq

/-- Errors initializeUpload can throw. -/
inductive InitError where
  | quotaExceeded (sizeBytes : Int)
deriving DecidableEq

/-- The placeholder document of initializeUpload
(part_005 lines 104-118). -/
def placeholderDoc (userId fileId : String) (file : FileInfo) (now : Int) : MediaDoc :=
  { ownerId := userId,
    fileId := fileId,
    fileName := file.name,
    mimeType := file.mime,
    sizeBytes := some file.size,
    storagePath := "users/" ++ userId ++ "/originals/" ++ fileId ++ "-" ++ file.name,
    createdAt := some now,
    updatedAt := none,
    status := "uploading",
    progress := some 0,
    downloadURL := none,
    error := none,
    analysis := none,
    analyzedAt := none,
    adminStatus := some "pending",
    visibility := some "private",
    tags := none,
    caption := none,
    moderation := none,
    extractedEntities := none }

/-- initializeUpload (part_005 lines 84-128): quota check first, then
the placeholder write and the resumable transfer start. The thrown
quota error produces no effect. The fileId parameter models the
crypto.randomUUID result. -/
def initializeUpload (fetch : ProfileFetch) (userId fileId : String)
    (file : FileInfo) (now : Int) : Except InitError (List InitEffect) :=
  if checkQuota fetch file.size then
    Except.ok
      [InitEffect.createDoc (placeholderDoc userId fileId file now),
       InitEffect.startUploadTask
         ("users/" ++ userId ++ "/originals/" ++ fileId ++ "-" ++ file.name)]
  else
    Except.error (InitError.quotaExceeded file.size)

/-- finalizeUpload (part_005 lines 253-259): on transfer success the
record becomes pending with the durable download URL. -/
def finalizeUpload (d : MediaDoc) (downloadURL : String) (now : Int) : MediaDoc :=
  { d with status := "pending", downloadURL := some downloadURL, updatedAt := some now }

/-- failUpload (part_005 lines 261-267): the record is written with
the frontend failure status string error and a bare message string. -/
def failUpload (d : MediaDoc) (errorMsg : String) (now : Int) : MediaDoc :=
  { d with status := "error", error := some (ErrValue.str errorMsg), updatedAt := some now }

/-- mapSnapshotToMediaItems, per document (part_005 lines 197-231):
normalizes backend status names to the frontend ones and fills
defaults. The now parameter models Date.now() used when createdAt is
absent. -/
def mapDocToItem (now : Int) (d : MediaDoc) : MediaItem :=
  let status1 := if d.status = "ready" then "complete" else d.status
  let safeStatus := if status1 = "failed" then "error" else status1
  { id := d.fileId,
    file := none,
    url := d.downloadURL.getD "",
    mediaType := guessMediaType d.mimeType,
    name := d.fileName,
    timestamp := d.createdAt.getD now,
    status := safeStatus,
    progress := if safeStatus = "complete" then 100 else d.progress.getD 0,
    error := d.error,
    analysis := d.analysis,
    isAnalyzing := safeStatus == "pending" || safeStatus == "processing",
    ownerId := d.ownerId,
    storagePath := d.storagePath,
    sizeBytes := d.sizeBytes,
    adminStatus := d.adminStatus.getD "pending",
    visibility := d.visibility.getD "private" }

/-- updateMediaMetadata (part_005 lines 248-251) applied to the field
map updateLibraryItem sends: every field of the frontend item except
the in-memory file object is written onto the document. Item keys that
do not exist on the document (id, url, name, timestamp, mediaType,
isAnalyzing) land beside it and are not modelled; document keys the
item lacks (fileId, fileName, mimeType, downloadURL, createdAt,
updatedAt) are untouched by updateDoc. -/
def applyItemUpdate (d : MediaDoc) (it : MediaItem) : MediaDoc :=
  { d with status := it.status,
           progress := some it.progress,
           error := it.error,
           analysis := it.analysis,
           ownerId := it.ownerId,
           storagePath := it.storagePath,
           sizeBytes := it.sizeBytes,
           adminStatus := some it.adminStatus,
           visibility := some it.visibility }

end StorageService

/-! Earlier iteration of the storage service, src/unnamed/part_004. -/

namespace StorageServiceV0

/-- finalizeUpload of the earlier iteration (part_004 lines 115-121):
on transfer success the record is written directly to ready. -/
def finalizeUpload (d : MediaDoc) (downloadURL : String) (now : Int) : MediaDoc :=
  { d with status := "ready", downloadURL := some downloadURL, updatedAt := some now }

/-- failUpload of the earlier iteration (part_004 lines 123-129). -/
def failUpload (d : MediaDoc) (errorMsg : String) (now : Int) : MediaDoc :=
  { d with status := "failed", error := some (ErrValue.str errorMsg), updatedAt := some now }

end StorageServiceV0

/-- Storage transfer error as delivered to the upload error callback:
a code such as storage/canceled and a message. -/
structure StorageErr where
  code : String
  message : String
deriving DecidableEq

/-! Client application, src/App.tsx. -/

namespace AppTsx

/-- The per-item overlay of mergedLibrary (App.tsx lines 82-91): when
the local ephemeral progress map holds an entry for the item id, the
rendered item gets that progress and status uploading; otherwise the
durable item passes through unchanged. -/
def overlayItem (progressMap : List (String × Int)) (it : MediaItem) : MediaItem :=
  match progressMap.find? (fun p => p.1 == it.id) with
  | some p => { it with progress := p.2, status := "uploading" }
  | none => it

/-- mergedLibrary (App.tsx lines 82-91). -/
def mergedLibrary (progressMap : List (String × Int)) (lib : List MediaItem) :
    List MediaItem :=
  lib.map (overlayItem progressMap)

/-- updateLibraryItem (App.tsx lines 102-106): destructures the file
field away and writes the remaining item fields onto the durable
document through updateMediaMetadata. -/
def updateLibraryItem (d : MediaDoc) (it : MediaItem) : MediaDoc :=
  StorageService.applyItemUpdate d it

/-- The transfer-error callback of handleUpload (App.tsx lines
169-185): rewrites the message for storage/canceled, records the
failure through failUpload, and shows the failure toast only for
non-cancellation errors. Returns the written document and whether a
failure toast is raised. -/
def handleUploadError (d : MediaDoc) (e : StorageErr) (now : Int) : MediaDoc × Bool :=
  let errorMsg := if e.code == "storage/canceled" then "Upload cancelled by user" else e.message
  (StorageService.failUpload d errorMsg now, e.code != "storage/canceled")

/-- handleRenamePerson per item (App.tsx lines 265-277): items whose
detected people contain the old name get every occurrence replaced;
this iteration does not touch isUserEdited. -/
def renameItem (oldName newName : String) (it : MediaItem) : MediaItem :=
  match it.analysis with
  | some a =>
    if oldName ∈ a.peopleDetected then
      { it with
          analysis := some ({ a with
            peopleDetected :=
              a.peopleDetected.map (fun p => if p = oldName then newName else p) }) }
    else it
  | none => it

/-- handleRenamePerson (App.tsx lines 265-277) over the library: the
durable effect of the per-item updateLibraryItem calls. -/
def handleRenamePerson (oldName newName : String) (lib : List MediaItem) :
    List MediaItem :=
  lib.map (renameItem oldName newName)

end AppTsx

/-! Application document embedded in src/components/ErrorBoundary.tsx
(the iteration with the diagnostics drawer and log context). -/

namespace AppDiag

/-- handleRenamePerson per item (ErrorBoundary.tsx lines 394-408):
like the rename in src/App.tsx but also marking the analysis as a
user correction with isUserEdited true. -/
def renameItem (oldName newName : String) (it : MediaItem) : MediaItem :=
  match it.analysis with
  | some a =>
    if oldName ∈ a.peopleDetected then
      { it with
          analysis := some ({ a with
            peopleDetected :=
              a.peopleDetected.map (fun p => if p = oldName then newName else p),
            isUserEdited := some true }) }
    else it
  | none => it

/-- handleRenamePerson (ErrorBoundary.tsx lines 394-408) over the
library. -/
def handleRenamePerson (oldName newName : String) (lib : List MediaItem) :
    List MediaItem :=
  lib.map (renameItem oldName newName)

end AppDiag

/-! Application iteration src/unnamed/part_012. -/

namespace AppAlt

/-- handleRenamePerson per item (part_012 lines 292-304): replaces the
old name but does not set isUserEdited. -/
def renameItem (oldName newName : String) (it : MediaItem) : MediaItem :=
  match it.analysis with
  | some a =>
    if oldName ∈ a.peopleDetected then
      { it with
          analysis := some ({ a with
            peopleDetected :=
              a.peopleDetected.map (fun p => if p = oldName then newName else p) }) }
    else it
  | none => it

/-- handleRenamePerson (part_012 lines 292-304) over the library. -/
def handleRenamePerson (oldName newName : String) (lib : List MediaItem) :
    List MediaItem :=
  lib.map (renameItem oldName newName)

end AppAlt

/-- One durable status transition of the pipeline for a valid upload:
each constructor is one of the modelled writes, guarded by the state
in which the code issues it (the client finalize fires on transfer
success of an uploading record; the trigger writes fire under the
pending guard of onFileUpload; the watchdog write fires on a stale
pending or processing record). -/
inductive PipelineStep : MediaDoc → MediaDoc → Prop where
  | finalize (d : MediaDoc) (url : String) (now : Int)
      (h : d.status = "uploading") :
      PipelineStep d (StorageService.finalizeUpload d url now)
  | missingUrl (d : MediaDoc) (now : Int)
      (h : d.status = "pending") (hu : d.downloadURL = none) :
      PipelineStep d (Handlers.missingUrlWrite d now)
  | startProcessing (d : MediaDoc) (now : Int) (url : String)
      (h : d.status = "pending") (hu : d.downloadURL = some url) :
      PipelineStep d (Handlers.markProcessing d now)
  | aiSuccess (d : MediaDoc) (a : FlowResult) (now : Int)
      (h : d.status = "processing") :
      PipelineStep d (Handlers.successWrite d a now)
  | aiFailure (d : MediaDoc) (m : String) (now : Int)
      (h : d.status = "processing") :
      PipelineStep d (Handlers.analysisFailedWrite d m now)
  | watchdogTimeout (d : MediaDoc) (now t : Int)
      (h : d.status = "pending" ∨ d.status = "processing")
      (ht : d.updatedAt = some t) (hstale : t < now - 5 * 60 * 1000) :
      PipelineStep d (Handlers.markTimedOut now d)

/-! A store of one owner's records for the quota reconciler: the set
of currently existing documents, reduced to file id and sizeBytes.
Each datastore operation fires one manageQuota invocation with the
before and after snapshots, as onDocumentWritten delivers them. -/

/-- Existing records of one owner: file id paired with sizeBytes. -/
abbrev QuotaStore := List (String × Int)

/-- Keys of the store are distinct document ids. -/
def keysNodup (s : QuotaStore) : Prop := (s.map Prod.fst).Nodup

instance (s : QuotaStore) : Decidable (keysNodup s) := by
  unfold keysNodup; infer_instance

/-- Sum of sizeBytes over the currently existing records. -/
def totalSize (s : QuotaStore) : Int := (s.map Prod.snd).sum

/-- A snapshot document carrying a given sizeBytes, as seen by
manageQuota (which reads only sizeBytes from the snapshots). -/
def sizeDoc (owner id : String) (n : Int) : MediaDoc :=
  { ownerId := owner,
    fileId := id,
    fileName := id,
    mimeType := "application/octet-stream",
    sizeBytes := some n,
    storagePath := "users/" ++ owner ++ "/originals/" ++ id,
    createdAt := none,
    updatedAt := none,
    status := "uploading",
    progress := none,
    downloadURL := none,
    error := none,
    analysis := none,
    analyzedAt := none,
    adminStatus := none,
    visibility := none,
    tags := none,
    caption := none,
    moderation := none,
    extractedEntities := none }

/-- A datastore operation on one owner's records: setDoc of a record
with a size, or deleteDoc. -/
inductive QuotaOp where
  | create (id : String) (size : Int)
  | delete (id : String)
deriving DecidableEq

/-- Apply one operation to the store and deliver the resulting write
event to manageQuota: creation has no before snapshot, deletion has no
after snapshot, setDoc over an existing id is an update. Deleting a
missing document fires no event. -/
def applyQuotaOp (owner : String) : QuotaStore × Int → QuotaOp → QuotaStore × Int
  | (s, u), QuotaOp.create id size =>
    let before := (s.find? (fun p => p.1 == id)).map (fun p => sizeDoc owner id p.2)
    ((id, size) :: s.filter (fun p => p.1 != id),
     Handlers.manageQuota u before (some (sizeDoc owner id size)))
  | (s, u), QuotaOp.delete id =>
    match s.find? (fun p => p.1 == id) with
    | some p => (s.filter (fun q => q.1 != id),
                 Handlers.manageQuota u (some (sizeDoc owner id p.2)) none)
    | none => (s, u)

/-- Run a sequence of operations against a store and usedBytes
counter. -/
def runQuotaOps (owner : String) (init : QuotaStore × Int) (ops : List QuotaOp) :
    QuotaStore × Int :=
  ops.foldl (applyQuotaOp owner) init

/-- Fold a list of delivered write events through manageQuota, in
delivery order: this is the usedBytes counter under a given
interleaving of atomic increments. -/
def foldQuotaEvents (u : Int) (evs : List (Option MediaDoc × Option MediaDoc)) : Int :=
  evs.foldl (fun acc e => Handlers.manageQuota acc e.1 e.2) u

/-! Concrete documents used as witnesses and counterexamples. -/

/-- An analysis object with one detected person. -/
def exampleAnalysis : AnalysisResult :=
  { description := "a photo",
    tags := ["beach"],
    peopleDetected := ["Alice"],
    safetyLevel := "SAFE",
    safetyReason := some "clear",
    transcript := none,
    suggestedAction := none,
    technicalLocation := none,
    isUserEdited := none }

/-- A freshly created placeholder record. -/
def docUploading : MediaDoc :=
  StorageService.placeholderDoc "u1" "f1" { name := "a.png", mime := "image/png", size := 1024 } 1000

/-- The record after a successful transfer finalize. -/
def docPending : MediaDoc :=
  StorageService.finalizeUpload docUploading "https://cdn/f1" 2000

/-- The record after the trigger marked it processing. -/
def docProcessing : MediaDoc :=
  Handlers.markProcessing docPending 2500

/-- A ready record whose analysis detected Alice, with the stored
placeholder progress still at zero. -/
def docReadyAlice : MediaDoc :=
  { docPending with status := "ready", analysis := some exampleAnalysis, analyzedAt := some 3000 }

/-- The frontend item the subscription builds from docReadyAlice. -/
def itemAlice : MediaItem :=
  StorageService.mapDocToItem 5000 docReadyAlice

/-- A profile with 100 MB quota and 95 MB used (5 MB remaining). -/
def profile5mbLeft : UserProfileDoc :=
  { uid := "u1", role := "user", quotaBytes := 104857600, usedBytes := 99614720 }

/-- A 10 MB file. -/
def file10mb : FileInfo :=
  { name := "big.png", mime := "image/png", size := 10485760 }

/-- A non-cancellation storage transfer error. -/
def errBoom : StorageErr :=
  { code := "storage/retry-limit-exceeded", message := "boom" }

/-! ## Theorems -/

/-- Claim C10: the client quota pre-check fails open on a missing
profile (checkQuota returns true for every file size when the profile
document does not exist) and fails closed on a read error (checkQuota
returns false when the getDoc read throws). -/
theorem checkQuota_failOpen_failClosed (fileSize : Int) :
    StorageService.checkQuota (ProfileFetch.ok none) fileSize = true
    ∧ StorageService.checkQuota ProfileFetch.err fileSize = false :=
  ⟨rfl, rfl⟩

/-- Claim C6: when the file size exceeds the remaining quota,
initializeUpload throws the quota error and performs no effect (no
placeholder document, no storage transfer); with enough quota it
creates exactly the uploading placeholder and starts the transfer. -/
theorem initializeUpload_quota_guard (p : UserProfileDoc) (userId fileId : String)
    (file : FileInfo) (now : Int) :
    (p.quotaBytes - p.usedBytes < file.size →
      StorageService.initializeUpload (ProfileFetch.ok (some p)) userId fileId file now
        = Except.error (StorageService.InitError.quotaExceeded file.size))
    ∧ (file.size ≤ p.quotaBytes - p.usedBytes →
      StorageService.initializeUpload (ProfileFetch.ok (some p)) userId fileId file now
        = Except.ok
            [StorageService.InitEffect.createDoc
               (StorageService.placeholderDoc userId fileId file now),
             StorageService.InitEffect.startUploadTask
               ("users/" ++ userId ++ "/originals/" ++ fileId ++ "-" ++ file.name)]) := by
  constructor
  · intro h
    have hq : StorageService.checkQuota (ProfileFetch.ok (some p)) file.size = false := by
      simp [StorageService.checkQuota]
      omega
    simp [StorageService.initializeUpload, hq]
  · intro h
    have hq : StorageService.checkQuota (ProfileFetch.ok (some p)) file.size = true := by
      simp [StorageService.checkQuota]
      omega
    simp [StorageService.initializeUpload, hq]

/-- Witness for C6, the spec scenario: a 10 MB upload against 5 MB of
remaining quota is rejected with the quota error. -/
theorem initializeUpload_quota_guard_witness :
    StorageService.initializeUpload (ProfileFetch.ok (some profile5mbLeft)) "u1" "f9" file10mb 1000
      = Except.error (StorageService.InitError.quotaExceeded 10485760) :=
  (initializeUpload_quota_guard profile5mbLeft "u1" "f9" file10mb 1000).1 (by decide)

/-- Claim C7 counterexample: the failUpload transition the client
error callback performs (src/unnamed/part_005 lines 261-267) does not
write status failed; at this concrete transfer error the document gets
status error with a bare message string, not a structured code,
message, timestamp object. -/
theorem handleUploadError_counterexample :
    (AppTsx.handleUploadError docUploading errBoom 7).1.status ≠ "failed"
    ∧ (AppTsx.handleUploadError docUploading errBoom 7).1.status = "error"
    ∧ (AppTsx.handleUploadError docUploading errBoom 7).1.error = some (ErrValue.str "boom") := by
  decide

/-- Claim C7 as amended: on every transfer failure the coordinator
writes the client failure status string error (the frontend alias of
failed) with the error message as a plain string; the storage/canceled
code is distinguished (its message becomes Upload cancelled by user)
and raises no user-facing failure toast, while every other code
does. -/
theorem handleUploadError_spec (d : MediaDoc) (e : StorageErr) (now : Int) :
    (AppTsx.handleUploadError d e now).1.status = "error"
    ∧ (AppTsx.handleUploadError d e now).1.error
        = some (ErrValue.str
            (if e.code == "storage/canceled" then "Upload cancelled by user" else e.message))
    ∧ (AppTsx.handleUploadError d e now).2 = (e.code != "storage/canceled")
    ∧ (AppTsx.handleUploadError d e now).1.updatedAt = some now :=
  ⟨rfl, rfl, rfl, rfl⟩

/-- Claim C1 counterexample: the finalize step of the cited earlier
coordinator iteration (src/unnamed/part_004 lines 115-121) does not
write status pending on transfer success; at this concrete uploading
record it writes status ready directly, a later state, skipping both
pending and processing. -/
theorem uploadLifecycle_counterexample :
    (StorageServiceV0.finalizeUpload docUploading "https://cdn/f1" 2000).status ≠ "pending"
    ∧ (StorageServiceV0.finalizeUpload docUploading "https://cdn/f1" 2000).status = "ready"
    ∧ docUploading.status = "uploading" := by
  decide

/-- Claim C1 as amended: in the current pipeline (part_005 storage
service plus the server handlers), every durable transition respects
the state machine — a record can become ready only from processing and
processing only from pending, and the only transition out of uploading
is the finalize to pending — and finalizeUpload writes exactly status
pending together with the populated downloadURL. The earlier
part_004 finalize instead wrote ready directly. -/
theorem uploadLifecycle_spec (d d2 : MediaDoc) (url : String) (now : Int) :
    (PipelineStep d d2 →
       (d2.status = "ready" → d.status = "processing")
       ∧ (d2.status = "processing" → d.status = "pending")
       ∧ (d.status = "uploading" → d2.status = "pending"))
    ∧ (StorageService.finalizeUpload d url now).status = "pending"
    ∧ (StorageService.finalizeUpload d url now).downloadURL = some url := by
  refine ⟨?_, rfl, rfl⟩
  intro hstep
  cases hstep with
  | finalize u n h =>
    refine ⟨fun h2 => ?_, fun h2 => ?_, fun _ => rfl⟩
    · exact absurd (show ("pending" : String) = "ready" from h2) (by decide)
    · exact absurd (show ("pending" : String) = "processing" from h2) (by decide)
  | missingUrl n h hu =>
    refine ⟨fun h2 => ?_, fun h2 => ?_, fun h2 => ?_⟩
    · exact absurd (show ("failed" : String) = "ready" from h2) (by decide)
    · exact absurd (show ("failed" : String) = "processing" from h2) (by decide)
    · rw [h] at h2
      exact absurd h2 (by decide)
  | startProcessing n u h hu =>
    refine ⟨fun h2 => ?_, fun _ => h, fun h2 => ?_⟩
    · exact absurd (show ("processing" : String) = "ready" from h2) (by decide)
    · rw [h] at h2
      exact absurd h2 (by decide)
  | aiSuccess a n h =>
    refine ⟨fun _ => h, fun h2 => ?_, fun h2 => ?_⟩
    · exact absurd (show ("ready" : String) = "processing" from h2) (by decide)
    · rw [h] at h2
      exact absurd h2 (by decide)
  | aiFailure m n h =>
    refine ⟨fun h2 => ?_, fun h2 => ?_, fun h2 => ?_⟩
    · exact absurd (show ("failed" : String) = "ready" from h2) (by decide)
    · exact absurd (show ("failed" : String) = "processing" from h2) (by decide)
    · rw [h] at h2
      exact absurd h2 (by decide)
  | watchdogTimeout n t h ht hstale =>
    refine ⟨fun h2 => ?_, fun h2 => ?_, fun h2 => ?_⟩
    · exact absurd (show ("failed" : String) = "ready" from h2) (by decide)
    · exact absurd (show ("failed" : String) = "processing" from h2) (by decide)
    · rcases h with h | h
      · rw [h] at h2
        exact absurd h2 (by decide)
      · rw [h] at h2
        exact absurd h2 (by decide)

/-- Witness for C1: the finalize of an uploading record lands in
pending, and a record that just became processing came from pending,
both obtained through concrete pipeline steps. -/
theorem uploadLifecycle_witness :
    (StorageService.finalizeUpload docUploading "https://cdn/f1" 2000).status = "pending"
    ∧ docPending.status = "pending" :=
  ⟨((uploadLifecycle_spec docUploading
        (StorageService.finalizeUpload docUploading "https://cdn/f1" 2000) "https://cdn/f1" 2000).1
      (PipelineStep.finalize docUploading "https://cdn/f1" 2000 rfl)).2.2 rfl,
   ((uploadLifecycle_spec docPending (Handlers.markProcessing docPending 2500)
        "https://cdn/f1" 2500).1
      (PipelineStep.startProcessing docPending 2500 "https://cdn/f1" rfl rfl)).2.1 rfl⟩

/-- The per-document action of one watchdog sweep at time now. -/
lemma sweep_get (now : Int) (docs : List MediaDoc) (i : Nat) :
    (Handlers.cleanupStuckProcessing now docs).get? i
      = (docs.get? i).map (fun d => if Handlers.isStale now d then Handlers.markTimedOut now d else d) := by
  simp [Handlers.cleanupStuckProcessing]

/-- A document the sweep has just marked failed never matches the
staleness query again. -/
lemma isStale_markTimedOut (now now2 : Int) (d : MediaDoc) :
    Handlers.isStale now2 (Handlers.markTimedOut now d) = false := by
  simp [Handlers.isStale, Handlers.markTimedOut]

/-- Claim C2: a record with status pending or processing whose
updatedAt is older than the five-minute cutoff is transitioned by the
sweep to failed with error code timeout; a record whose status is
outside that set, or whose updatedAt is not past the cutoff (or
absent), is left unchanged; and re-running the sweep against the
resulting state at the same instant is a no-op. -/
theorem watchdog_sweep_spec (now : Int) (docs : List MediaDoc) (i : Nat) (d : MediaDoc)
    (hd : docs.get? i = some d) :
    ((d.status = "pending" ∨ d.status = "processing") →
      ∀ t, d.updatedAt = some t → t < now - 5 * 60 * 1000 →
        (Handlers.cleanupStuckProcessing now docs).get? i = some (Handlers.markTimedOut now d)
        ∧ (Handlers.markTimedOut now d).status = "failed"
        ∧ (Handlers.markTimedOut now d).error
            = some (ErrValue.structured "timeout" "AI pipeline timeout. Please click Reanalyze." now))
    ∧ (((d.status ≠ "pending" ∧ d.status ≠ "processing")
        ∨ (∀ t, d.updatedAt = some t → ¬ t < now - 5 * 60 * 1000)) →
      (Handlers.cleanupStuckProcessing now docs).get? i = some d)
    ∧ Handlers.cleanupStuckProcessing now (Handlers.cleanupStuckProcessing now docs)
        = Handlers.cleanupStuckProcessing now docs := by
  refine ⟨?_, ?_, ?_⟩
  · intro hs t ht hlt
    have hstale : Handlers.isStale now d = true := by
      rcases hs with h | h <;> simp [Handlers.isStale, h, ht] <;> omega
    refine ⟨?_, rfl, rfl⟩
    rw [sweep_get, hd]
    simp [hstale]
  · intro hq
    have hstale : Handlers.isStale now d = false := by
      rcases hq with ⟨h1, h2⟩ | h
      · simp [Handlers.isStale, h1, h2]
      · rcases hu : d.updatedAt with _ | t
        · simp [Handlers.isStale, hu]
        · have hle := h t hu
          simp [Handlers.isStale, hu]
          intro _
          omega
    rw [sweep_get, hd]
    simp [hstale]
  · unfold Handlers.cleanupStuckProcessing
    rw [List.map_map]
    refine List.map_congr_left ?_
    intro x _
    by_cases hx : Handlers.isStale now x
    · simp [hx, isStale_markTimedOut]
    · simp [hx]

/-- Witness for C2: a pending record last updated at 2000 is marked
failed with the timeout error by a sweep at time 1000000. -/
theorem watchdog_sweep_witness :
    (Handlers.cleanupStuckProcessing 1000000 [docPending]).get? 0
      = some (Handlers.markTimedOut 1000000 docPending)
    ∧ (Handlers.markTimedOut 1000000 docPending).status = "failed" :=
  have h := watchdog_sweep_spec 1000000 [docPending] 0 docPending rfl
  ⟨(h.1 (Or.inl rfl) 2000 rfl (by decide)).1, (h.1 (Or.inl rfl) 2000 rfl (by decide)).2.1⟩

/-- Every document state the trigger writes has a status other than
pending: failed for the malformed-URL shortcut, processing before the
AI call, ready on success, failed on failure. -/
lemma onFileUpload_writes_not_pending (after : Option MediaDoc)
    (ctxFetch : Except Unit (List String)) (ai : List String → Except String FlowResult)
    (now : Int) :
    ∀ d2 ∈ (Handlers.onFileUpload after ctxFetch ai now).1, d2.status ≠ "pending" := by
  intro d2 hd2
  match after with
  | none => simp [Handlers.onFileUpload] at hd2
  | some d =>
    by_cases hp : d.status = "pending"
    · rcases hu : d.downloadURL with _ | u
      · simp [Handlers.onFileUpload, hp, hu] at hd2
        subst hd2
        exact fun hx => absurd (show ("failed" : String) = "pending" from hx) (by decide)
      · rcases hctx : ctxFetch with e | l
        · rcases hai : ai [] with m | a
          · simp [Handlers.onFileUpload, hp, hu, hctx, hai] at hd2
            rcases hd2 with rfl | rfl
            · exact fun hx => absurd (show ("processing" : String) = "pending" from hx) (by decide)
            · exact fun hx => absurd (show ("failed" : String) = "pending" from hx) (by decide)
          · simp [Handlers.onFileUpload, hp, hu, hctx, hai] at hd2
            rcases hd2 with rfl | rfl
            · exact fun hx => absurd (show ("processing" : String) = "pending" from hx) (by decide)
            · exact fun hx => absurd (show ("ready" : String) = "pending" from hx) (by decide)
        · rcases hai : ai l with m | a
          · simp [Handlers.onFileUpload, hp, hu, hctx, hai] at hd2
            rcases hd2 with rfl | rfl
            · exact fun hx => absurd (show ("processing" : String) = "pending" from hx) (by decide)
            · exact fun hx => absurd (show ("failed" : String) = "pending" from hx) (by decide)
          · simp [Handlers.onFileUpload, hp, hu, hctx, hai] at hd2
            rcases hd2 with rfl | rfl
            · exact fun hx => absurd (show ("processing" : String) = "pending" from hx) (by decide)
            · exact fun hx => absurd (show ("ready" : String) = "pending" from hx) (by decide)
    · simp [Handlers.onFileUpload, hp] at hd2

/-- Claim C3: the trigger acts only when the post-write status is
exactly pending — for any other status (including processing, ready,
failed, and deletions) it performs no write and no AI call — and a
second invocation against any state the first invocation wrote is a
no-op with no AI call. -/
theorem analysisTrigger_guard_idempotent (after : MediaDoc)
    (ctxFetch ctx2 : Except Unit (List String))
    (ai ai2 : List String → Except String FlowResult) (now now2 : Int) :
    (after.status ≠ "pending" →
      Handlers.onFileUpload (some after) ctxFetch ai now = ([], false))
    ∧ Handlers.onFileUpload none ctxFetch ai now = ([], false)
    ∧ (∀ d2 ∈ (Handlers.onFileUpload (some after) ctxFetch ai now).1,
        Handlers.onFileUpload (some d2) ctx2 ai2 now2 = ([], false)) := by
  refine ⟨fun h => by simp [Handlers.onFileUpload, h], rfl, ?_⟩
  intro d2 hd2
  have hnp := onFileUpload_writes_not_pending (some after) ctxFetch ai now d2 hd2
  simp [Handlers.onFileUpload, hnp]

/-- Witness for C3: a record already in processing (the state the
first invocation writes before calling the AI) triggers no write and
no AI call. -/
theorem analysisTrigger_guard_witness :
    Handlers.onFileUpload (some docProcessing) (Except.ok [])
      (fun _ => Except.error "x") 2600 = ([], false) :=
  (analysisTrigger_guard_idempotent docProcessing (Except.ok []) (Except.ok [])
      (fun _ => Except.error "x") (fun _ => Except.error "x") 2600 2600).1 (by decide)

/-- Claim C4: when a pending record with a downloadURL hits an AI call
that throws, the invocation ends with a final write of status failed
carrying a structured analysis_failed error whose message contains the
thrown message, and the final written state is not processing. -/
theorem analysisFailure_spec (d : MediaDoc) (ctxFetch : Except Unit (List String))
    (m : String) (now : Int) (h1 : d.status = "pending") (h2 : ∃ u, d.downloadURL = some u) :
    ∃ dfail,
      (Handlers.onFileUpload (some d) ctxFetch (fun _ => Except.error m) now).1.getLast?
        = some dfail
      ∧ dfail.status = "failed"
      ∧ dfail.status ≠ "processing"
      ∧ ∃ s, dfail.error = some (ErrValue.structured "analysis_failed" s now)
        ∧ ∃ p q, s = p ++ m ++ q := by
  obtain ⟨u, hu⟩ := h2
  refine ⟨Handlers.analysisFailedWrite (Handlers.markProcessing d now) m now, ?_, rfl,
    fun hx => absurd (show ("failed" : String) = "processing" from hx) (by decide),
    if m = "" then "Unknown error" else m, rfl, ?_⟩
  · simp [Handlers.onFileUpload, h1, hu]
  · by_cases hm : m = ""
    · subst hm
      exact ⟨"", "Unknown error", by simp⟩
    · refine ⟨"", "", ?_⟩
      simp [hm]

/-- Witness for C4, the spec scenario: a pending record whose AI call
throws rate limited ends failed with an analysis_failed error whose
message contains rate limited. -/
theorem analysisFailure_witness :
    ∃ dfail,
      (Handlers.onFileUpload (some docPending) (Except.ok [])
          (fun _ => Except.error "rate limited") 2500).1.getLast? = some dfail
      ∧ dfail.status = "failed"
      ∧ dfail.status ≠ "processing"
      ∧ ∃ s, dfail.error = some (ErrValue.structured "analysis_failed" s 2500)
        ∧ ∃ p q, s = p ++ "rate limited" ++ q :=
  analysisFailure_spec docPending (Except.ok []) "rate limited" 2500 rfl
    ⟨"https://cdn/f1", rfl⟩

/-- After substituting newName for oldName in a list, oldName no
longer occurs (when the two names differ). -/
lemma oldName_not_mem_subst (oldName newName : String) (h : oldName ≠ newName)
    (l : List String) :
    oldName ∉ l.map (fun p => if p = oldName then newName else p) := by
  intro hmem
  rcases List.mem_map.mp hmem with ⟨p, _, he⟩
  by_cases hpo : p = oldName
  · rw [if_pos hpo] at he
    exact h he.symm
  · rw [if_neg hpo] at he
    exact hpo he

/-- Claim C8 counterexample: the cited rename handler of
src/unnamed/part_012 replaces the name but does not set isUserEdited —
on this concrete record the renamed analysis still has isUserEdited
absent, refuting the claim that every updated record gets
isUserEdited set to true. -/
theorem renamePerson_counterexample :
    ((AppAlt.renameItem "Alice" "Bob" itemAlice).analysis.map (fun a => a.isUserEdited))
      = some none
    ∧ ((AppAlt.renameItem "Alice" "Bob" itemAlice).analysis.map (fun a => a.peopleDetected))
      = some ["Bob"]
    ∧ (itemAlice.analysis.map (fun a => a.peopleDetected)) = some ["Alice"] := by
  decide

/-- Claim C8 as amended: renaming a detected person updates every
record containing the old name so that no record retains it (for a
genuine rename, oldName different from newName); the handler in the
ErrorBoundary.tsx application also sets isUserEdited to true on each
updated analysis, while the part_012 iteration performs the same
substitution without touching isUserEdited. -/
theorem renamePerson_spec (oldName newName : String) (lib : List MediaItem)
    (hne : oldName ≠ newName) :
    (∀ it2 ∈ AppDiag.handleRenamePerson oldName newName lib,
      ∀ a, it2.analysis = some a → oldName ∉ a.peopleDetected)
    ∧ (∀ it ∈ lib, ∀ a, it.analysis = some a → oldName ∈ a.peopleDetected →
        ∃ a2, (AppDiag.renameItem oldName newName it).analysis = some a2
          ∧ a2.isUserEdited = some true
          ∧ a2.peopleDetected
              = a.peopleDetected.map (fun p => if p = oldName then newName else p))
    ∧ (∀ it2 ∈ AppAlt.handleRenamePerson oldName newName lib,
      ∀ a, it2.analysis = some a → oldName ∉ a.peopleDetected) := by
  refine ⟨?_, ?_, ?_⟩
  · intro it2 hit2 a ha
    rcases List.mem_map.mp hit2 with ⟨it, _, rfl⟩
    rcases h0 : it.analysis with _ | a0
    · simp [AppDiag.renameItem, h0] at ha
    · by_cases hm : oldName ∈ a0.peopleDetected
      · simp [AppDiag.renameItem, h0, hm] at ha
        rw [← ha]
        exact oldName_not_mem_subst oldName newName hne a0.peopleDetected
      · simp [AppDiag.renameItem, h0, hm] at ha
        rw [← ha]
        exact hm
  · intro it _ a ha hm
    refine ⟨{ a with
        peopleDetected := a.peopleDetected.map (fun p => if p = oldName then newName else p),
        isUserEdited := some true }, ?_, rfl, rfl⟩
    simp [AppDiag.renameItem, ha, hm]
  · intro it2 hit2 a ha
    rcases List.mem_map.mp hit2 with ⟨it, _, rfl⟩
    rcases h0 : it.analysis with _ | a0
    · simp [AppAlt.renameItem, h0] at ha
    · by_cases hm : oldName ∈ a0.peopleDetected
      · simp [AppAlt.renameItem, h0, hm] at ha
        rw [← ha]
        exact oldName_not_mem_subst oldName newName hne a0.peopleDetected
      · simp [AppAlt.renameItem, h0, hm] at ha
        rw [← ha]
        exact hm

/-- Witness for C8: renaming Alice to Bob on the concrete record sets
isUserEdited and substitutes the name in the ErrorBoundary.tsx
handler. -/
theorem renamePerson_witness :
    ∃ a2, (AppDiag.renameItem "Alice" "Bob" itemAlice).analysis = some a2
      ∧ a2.isUserEdited = some true
      ∧ a2.peopleDetected
          = exampleAnalysis.peopleDetected.map (fun p => if p = "Alice" then "Bob" else p) :=
  (renamePerson_spec "Alice" "Bob" [itemAlice] (by decide)).2.1 itemAlice
    (List.mem_singleton.mpr rfl) exampleAnalysis (by decide) (by decide)

/-- Claim C9 counterexample: a person edit (renaming Alice to Bob) on
a ready record changes durable fields that were not explicitly
updated — the write sends the whole frontend item, so the stored
status changes from ready to complete and the stored progress from 0
to 100 — refuting the claim that fields other than those explicitly
updated are unchanged. The analysis field is the one explicitly
updated. -/
theorem overlay_frame_counterexample :
    (AppTsx.updateLibraryItem docReadyAlice
        (AppTsx.renameItem "Alice" "Bob" itemAlice)).status ≠ docReadyAlice.status
    ∧ (AppTsx.updateLibraryItem docReadyAlice
        (AppTsx.renameItem "Alice" "Bob" itemAlice)).progress ≠ docReadyAlice.progress
    ∧ (AppTsx.renameItem "Alice" "Bob" itemAlice).analysis ≠ itemAlice.analysis := by
  decide

/-- Claim C9 as amended: the ephemeral overlay is read-only — an item
whose id is absent from the local progress map passes through
mergedLibrary unchanged, and the overlay never alters analysis, url,
error or id — and the durable write of updateLibraryItem carries no
value for the document-only fields (downloadURL, fileId, fileName,
mimeType, createdAt, updatedAt stay unchanged) and no file object;
but because the whole frontend item is written, the stored status and
progress of a ready record are rewritten to the frontend-normalized
complete and 100. -/
theorem overlay_frame_spec (progressMap : List (String × Int)) (it : MediaItem)
    (d : MediaDoc) (now : Int) :
    (progressMap.find? (fun p => p.1 == it.id) = none →
      AppTsx.overlayItem progressMap it = it)
    ∧ ((AppTsx.overlayItem progressMap it).analysis = it.analysis
       ∧ (AppTsx.overlayItem progressMap it).url = it.url
       ∧ (AppTsx.overlayItem progressMap it).error = it.error
       ∧ (AppTsx.overlayItem progressMap it).id = it.id)
    ∧ ((AppTsx.updateLibraryItem d it).downloadURL = d.downloadURL
       ∧ (AppTsx.updateLibraryItem d it).fileId = d.fileId
       ∧ (AppTsx.updateLibraryItem d it).fileName = d.fileName
       ∧ (AppTsx.updateLibraryItem d it).mimeType = d.mimeType
       ∧ (AppTsx.updateLibraryItem d it).createdAt = d.createdAt
       ∧ (AppTsx.updateLibraryItem d it).updatedAt = d.updatedAt)
    ∧ (d.status = "ready" →
        (AppTsx.updateLibraryItem d (StorageService.mapDocToItem now d)).status = "complete"
        ∧ (AppTsx.updateLibraryItem d (StorageService.mapDocToItem now d)).progress
            = some 100) := by
  refine ⟨?_, ?_, ⟨rfl, rfl, rfl, rfl, rfl, rfl⟩, ?_⟩
  · intro h
    simp [AppTsx.overlayItem, h]
  · rcases hf : progressMap.find? (fun p => p.1 == it.id) with _ | p <;>
      simp [AppTsx.overlayItem, hf]
  · intro h
    constructor
    · show (StorageService.mapDocToItem now d).status = "complete"
      simp [StorageService.mapDocToItem, h]
    · show some (StorageService.mapDocToItem now d).progress = some 100
      simp [StorageService.mapDocToItem, h]

/-- Witness for C9: with an empty progress map the overlay is the
identity on the concrete item, and a whole-item write against the
ready record stores the frontend status complete. -/
theorem overlay_frame_witness :
    AppTsx.overlayItem [] itemAlice = itemAlice
    ∧ (AppTsx.updateLibraryItem docReadyAlice
        (StorageService.mapDocToItem 5000 docReadyAlice)).status = "complete" :=
  have h := overlay_frame_spec [] itemAlice docReadyAlice 5000
  ⟨h.1 rfl, (h.2.2.2 rfl).1⟩

/-- manageQuota always adds the signed delta (a zero delta skips the
write but leaves the same value). -/
lemma manageQuota_eq_add (u : Int) (b a : Option MediaDoc) :
    Handlers.manageQuota u b a = u + Handlers.quotaDelta b a := by
  unfold Handlers.manageQuota
  by_cases h : Handlers.quotaDelta b a = 0
  · simp [h]
  · simp [h]

/-- Removing one key keeps the store keys distinct. -/
lemma keysNodup_filter (s : QuotaStore) (id : String) (h : keysNodup s) :
    keysNodup (s.filter (fun p => p.1 != id)) :=
  List.Nodup.sublist (List.Sublist.map Prod.fst (List.filter_sublist s)) h

/-- In a store with distinct keys, the total size splits into the size
found at a key (zero when absent) plus the total of the rest. -/
lemma totalSize_split (s : QuotaStore) (id : String) (h : keysNodup s) :
    totalSize s = ((s.find? (fun p => p.1 == id)).map Prod.snd).getD 0
      + totalSize (s.filter (fun p => p.1 != id)) := by
  induction s with
  | nil => simp [totalSize]
  | cons p s ih =>
    have htail : keysNodup s := (List.nodup_cons.mp h).2
    have hhead : p.1 ∉ s.map Prod.fst := (List.nodup_cons.mp h).1
    by_cases hp : p.1 = id
    · have hfind : (p :: s).find? (fun q => q.1 == id) = some p := by
        simp [List.find?, hp]
      have hfilter : (p :: s).filter (fun q => q.1 != id) = s := by
        rw [List.filter_cons]
        have hcond : (p.1 != id) = false := by simp [hp]
        rw [hcond]
        simp only [Bool.false_eq_true, if_false]
        rw [List.filter_eq_self]
        intro q hq
        have : q.1 ≠ id := by
          intro hqid
          exact hhead (hp ▸ hqid ▸ List.mem_map_of_mem Prod.fst hq)
        simp [this]
      rw [hfind, hfilter]
      simp [totalSize]
    · have hfind : (p :: s).find? (fun q => q.1 == id)
          = s.find? (fun q => q.1 == id) := by
        refine List.find?_cons_of_neg s ?_
        simp [hp]
      have hfilter : (p :: s).filter (fun q => q.1 != id)
          = p :: s.filter (fun q => q.1 != id) := by
        rw [List.filter_cons]
        simp [hp]
      rw [hfind, hfilter]
      have := ih htail
      simp only [totalSize, List.map_cons, List.sum_cons] at *
      omega

/-- One datastore operation preserves key distinctness and keeps
usedBytes equal to the total size of the existing records. -/
lemma applyQuotaOp_invariant (owner : String) (s : QuotaStore) (u : Int) (op : QuotaOp)
    (hn : keysNodup s) (hu : u = totalSize s) :
    keysNodup (applyQuotaOp owner (s, u) op).1
    ∧ (applyQuotaOp owner (s, u) op).2 = totalSize (applyQuotaOp owner (s, u) op).1 := by
  cases op with
  | create id size =>
    constructor
    · show keysNodup ((id, size) :: s.filter (fun p => p.1 != id))
      rw [keysNodup, List.map_cons, List.nodup_cons]
      refine ⟨?_, keysNodup_filter s id hn⟩
      intro hmem
      rcases List.mem_map.mp hmem with ⟨q, hq, hqid⟩
      have := List.mem_filter.mp hq
      simp [hqid] at this
    · show Handlers.manageQuota u _ (some (sizeDoc owner id size))
        = totalSize ((id, size) :: s.filter (fun p => p.1 != id))
      rw [manageQuota_eq_add]
      have hsplit := totalSize_split s id hn
      rcases hf : s.find? (fun p => p.1 == id) with _ | p
      · rw [hf] at hsplit
        rw [hf]
        simp at hsplit
        simp [Handlers.quotaDelta, sizeDoc, totalSize, List.map_cons, List.sum_cons] at *
        omega
      · rw [hf] at hsplit
        rw [hf]
        simp at hsplit
        simp [Handlers.quotaDelta, sizeDoc, totalSize, List.map_cons, List.sum_cons] at *
        omega
  | delete id =>
    rcases hf : s.find? (fun p => p.1 == id) with _ | p
    · show keysNodup (applyQuotaOp owner (s, u) (QuotaOp.delete id)).1 ∧ _
      simp only [applyQuotaOp, hf]
      exact ⟨hn, hu⟩
    · have hsplit := totalSize_split s id hn
      rw [hf] at hsplit
      simp at hsplit
      constructor
      · show keysNodup (applyQuotaOp owner (s, u) (QuotaOp.delete id)).1
        simp only [applyQuotaOp, hf]
        exact keysNodup_filter s id hn
      · simp only [applyQuotaOp, hf]
        rw [manageQuota_eq_add]
        simp [Handlers.quotaDelta, sizeDoc]
        omega

/-- The invariant of applyQuotaOp extends to any operation
sequence. -/
lemma runQuotaOps_invariant (owner : String) (ops : List QuotaOp) :
    ∀ s u, keysNodup s → u = totalSize s →
      keysNodup (runQuotaOps owner (s, u) ops).1
      ∧ (runQuotaOps owner (s, u) ops).2 = totalSize (runQuotaOps owner (s, u) ops).1 := by
  induction ops with
  | nil => intro s u hn hu; exact ⟨hn, hu⟩
  | cons op ops ih =>
    intro s u hn hu
    have hstep := applyQuotaOp_invariant owner s u op hn hu
    rcases hx : applyQuotaOp owner (s, u) op with ⟨s2, u2⟩
    rw [hx] at hstep
    have : runQuotaOps owner (s, u) (op :: ops) = runQuotaOps owner (s2, u2) ops := by
      simp [runQuotaOps, hx]
    rw [this]
    exact ih s2 u2 hstep.1 hstep.2

/-- Folding delivered events through manageQuota adds the sum of the
deltas. -/
lemma foldQuotaEvents_eq (evs : List (Option MediaDoc × Option MediaDoc)) :
    ∀ u, foldQuotaEvents u evs
      = u + (evs.map (fun e => Handlers.quotaDelta e.1 e.2)).sum := by
  induction evs with
  | nil => intro u; simp [foldQuotaEvents]
  | cons e evs ih =>
    intro u
    have h1 : foldQuotaEvents u (e :: evs)
        = foldQuotaEvents (Handlers.manageQuota u e.1 e.2) evs := rfl
    rw [h1, ih, manageQuota_eq_add]
    simp [List.map_cons, List.sum_cons]
    omega

/-- Claim C5: starting from a store whose usedBytes equals the total
size of the existing records (for example the empty store at zero),
any sequence of create and delete operations leaves usedBytes equal to
the exact sum of sizeBytes over the records that then exist; and the
increments commute — folding any permutation of the delivered write
events through manageQuota yields the same usedBytes. -/
theorem quotaReconciler_spec (owner : String) (ops : List QuotaOp) (s : QuotaStore)
    (u : Int) (hn : keysNodup s) (hu : u = totalSize s) :
    (runQuotaOps owner (s, u) ops).2 = totalSize (runQuotaOps owner (s, u) ops).1
    ∧ ∀ (u0 : Int) (evs evs2 : List (Option MediaDoc × Option MediaDoc)),
        evs.Perm evs2 → foldQuotaEvents u0 evs = foldQuotaEvents u0 evs2 := by
  constructor
  · exact (runQuotaOps_invariant owner ops s u hn hu).2
  · intro u0 evs evs2 hp
    rw [foldQuotaEvents_eq evs u0, foldQuotaEvents_eq evs2 u0,
      List.Perm.sum_eq (List.Perm.map (fun e => Handlers.quotaDelta e.1 e.2) hp)]

/-- Witness for C5: creating a (10 bytes) and b (5 bytes) then
deleting a leaves usedBytes equal to the total of the existing store,
and swapping the delivery order of a creation and a deletion event
yields the same counter. -/
theorem quotaReconciler_witness :
    (runQuotaOps "u1" ([], 0)
        [QuotaOp.create "a" 10, QuotaOp.create "b" 5, QuotaOp.delete "a"]).2
      = totalSize (runQuotaOps "u1" ([], 0)
        [QuotaOp.create "a" 10, QuotaOp.create "b" 5, QuotaOp.delete "a"]).1
    ∧ foldQuotaEvents 7
        [(none, some (sizeDoc "u1" "a" 10)), (some (sizeDoc "u1" "a" 10), none)]
      = foldQuotaEvents 7
        [(some (sizeDoc "u1" "a" 10), none), (none, some (sizeDoc "u1" "a" 10))] :=
  have h := quotaReconciler_spec "u1"
    [QuotaOp.create "a" 10, QuotaOp.create "b" 5, QuotaOp.delete "a"] [] 0 (by decide) rfl
  ⟨h.1, h.2 7 _ _ (List.Perm.swap _ _ _)⟩

end SmartMedia
